import Mathlib

/-!
# Verification of the `xr` request-picking engine

A shallow embedding of the package `xr` (file `pick.go`): `Picker.Pick`
binds values from an HTTP request into a destination struct, using a
content-type driven body decoder, per-field source tags
(`path`/`query`/`header`/`form`), an optional companion `Set<Field>`
method, a registered per-type setter override, a type-coercion switch
over `reflect.Kind`, and post-coercion validation tags
(`minLength`/`maxLength`/`minimum`/`maximum`).

Go floating-point values are modelled exactly: every finite `float32` or
`float64` is a dyadic rational `m * 2^e`, and `strconv.ParseFloat`
performs IEEE-754 round-to-nearest-even, which is implemented here on
exact integer arithmetic (`Dyadic`, `roundFrac`).
-/

set_option maxRecDepth 1000000

namespace Xr

/-! ## Exact binary floating-point values

A finite Go `float32`/`float64` value is exactly the rational
`m * 2^e`.  The representation is not normalized; `Dyadic.toRat` gives
its mathematical value and `Dyadic.lt` the order Go's `<` computes on
(finite) floats. -/

structure Dyadic where
  m : Int
  e : Int
deriving DecidableEq, Repr

def Dyadic.toRat (x : Dyadic) : ℚ := (x.m : ℚ) * (2 : ℚ) ^ x.e

/-- `x < y` as Go compares two finite floats: compare mantissas after
shifting to the smaller exponent.  Agrees with the rational order
(`Dyadic.lt_iff`). -/
def Dyadic.lt (x y : Dyadic) : Bool :=
  if x.e ≤ y.e then decide (x.m < y.m * (2 : Int) ^ (y.e - x.e).toNat)
  else decide (x.m * (2 : Int) ^ (x.e - y.e).toNat < y.m)

def Dyadic.abs (x : Dyadic) : Dyadic := ⟨|x.m|, x.e⟩

/-- Largest finite float32, `(2^24 - 1) * 2^104`. -/
def maxFloat32 : Dyadic := ⟨2 ^ 24 - 1, 104⟩

/-- Largest finite float64, `(2^53 - 1) * 2^971`. -/
def maxFloat64 : Dyadic := ⟨2 ^ 53 - 1, 971⟩

/-- Floor of the binary logarithm, driven by explicit fuel so that the
kernel can evaluate it.  `log2Fuel f n` is correct whenever `n ≤ f`
(`log2Fuel_spec`). -/
def log2Fuel : Nat → Nat → Nat
  | 0, _ => 0
  | f + 1, n => if n ≤ 1 then 0 else log2Fuel f (n / 2) + 1

def natLog2 (n : Nat) : Nat := log2Fuel n n

/-- Does `b * 2^c ≤ a` hold, for a possibly negative shift `c`? -/
def powShiftLe (b : Nat) (c : Int) (a : Nat) : Bool :=
  if 0 ≤ c then decide (b * 2 ^ c.toNat ≤ a) else decide (b ≤ a * 2 ^ (-c).toNat)

/-- Floor of the binary logarithm of `a / b` (for `1 ≤ a`, `1 ≤ b`):
the candidate `natLog2 a - natLog2 b` is off by at most one, corrected
by one direct comparison. -/
def fracLog2 (a b : Nat) : Int :=
  let c : Int := (natLog2 a : Int) - (natLog2 b : Int)
  if powShiftLe b c a then c else c - 1

/-- Round the positive rational `a / b` to the nearest integer multiple
of `2^g` (ties to even); returns the multiplier. -/
def roundAtExp (a b : Nat) (g : Int) : Nat :=
  let num := if 0 ≤ g then a else a * 2 ^ (-g).toNat
  let den := if 0 ≤ g then b * 2 ^ g.toNat else b
  let q := num / den
  let r := num % den
  if 2 * r < den then q
  else if den < 2 * r then q + 1
  else if q % 2 = 0 then q else q + 1

/-- IEEE-754 round-to-nearest-even of `±(a / b)` at precision `p`
significant bits with minimum exponent `emin` (subnormal range).
`p = 24, emin = -149` gives float32; `p = 53, emin = -1074` float64. -/
def roundFrac (p : Nat) (emin : Int) (neg : Bool) (a b : Nat) : Dyadic :=
  if a = 0 then ⟨0, 0⟩
  else
    let g : Int := max (fracLog2 a b - ((p : Int) - 1)) emin
    let mNat := roundAtExp a b g
    ⟨if neg then -(mNat : Int) else (mNat : Int), g⟩

/-- Go's conversion `float64(v)` of a signed 64-bit integer. -/
def goFloat64OfInt (v : Int) : Dyadic :=
  roundFrac 53 (-1074) (decide (v < 0)) v.natAbs 1

/-- Go's conversion `float64(v)` of an unsigned 64-bit integer. -/
def goFloat64OfNat (v : Nat) : Dyadic :=
  roundFrac 53 (-1074) false v 1

/-! ## `strconv` parsing (bases and forms the engine uses)

`Picker.set` only ever calls `strconv.ParseBool`, `ParseInt(s, 10, w)`,
`ParseUint(s, 10, w)`, `ParseFloat(s, w)` and `ParseComplex(s, w)`.
The float/complex parsers are modelled on finite decimal literals; the
`Inf`/`NaN`/hexadecimal/underscore forms of Go's syntax are outside the
model (no claim below touches them). -/

def digitVal (c : Char) : Nat := c.toNat - 48

def digitsToNat : List Char → Option Nat
  | [] => none
  | cs =>
    cs.foldl
      (fun acc c =>
        match acc with
        | none => none
        | some a => if c.isDigit then some (a * 10 + digitVal c) else none)
      (some 0)

/-- `strconv.ParseBool`: accepts exactly these twelve tokens. -/
def ParseBool (s : String) : Except String Bool :=
  if s = "1" ∨ s = "t" ∨ s = "T" ∨ s = "TRUE" ∨ s = "true" ∨ s = "True" then
    .ok true
  else if s = "0" ∨ s = "f" ∨ s = "F" ∨ s = "FALSE" ∨ s = "false" ∨ s = "False" then
    .ok false
  else .error ("strconv.ParseBool: parsing \"" ++ s ++ "\": invalid syntax")

/-- `strconv.ParseInt(s, 10, bitSize)`: optional sign, decimal digits,
width-specific range check.  Go returns the clamped value together with
`ErrRange`; `Picker.set` only propagates the error, so the model keeps
just the error. -/
def ParseInt (s : String) (bitSize : Nat) : Except String Int :=
  let bad : Except String Int :=
    .error ("strconv.ParseInt: parsing \"" ++ s ++ "\": invalid syntax")
  match s.toList with
  | [] => bad
  | cs =>
    let (neg, digits) :=
      match cs with
      | '+' :: rest => (false, rest)
      | '-' :: rest => (true, rest)
      | _ => (false, cs)
    match digitsToNat digits with
    | none => bad
    | some mval =>
      let n : Int := if neg then -(mval : Int) else (mval : Int)
      if n < -(2 ^ (bitSize - 1) : Int) ∨ (2 ^ (bitSize - 1) : Int) - 1 < n then
        .error ("strconv.ParseInt: parsing \"" ++ s ++ "\": value out of range")
      else .ok n

/-- `strconv.ParseUint(s, 10, bitSize)`: decimal digits only (no sign),
width-specific range check. -/
def ParseUint (s : String) (bitSize : Nat) : Except String Nat :=
  match digitsToNat s.toList with
  | none => .error ("strconv.ParseUint: parsing \"" ++ s ++ "\": invalid syntax")
  | some n =>
    if (2 ^ bitSize : Nat) - 1 < n then
      .error ("strconv.ParseUint: parsing \"" ++ s ++ "\": value out of range")
    else .ok n

/-- Mantissa part of a decimal float literal: `digits`, `digits.digits`,
`digits.` or `.digits`.  Returns the digit value and the number of
fractional digits. -/
def parseMantissa (cs : List Char) : Option (Nat × Nat) :=
  let ip := cs.takeWhile Char.isDigit
  let rest := cs.dropWhile Char.isDigit
  match rest with
  | [] => (digitsToNat ip).map (fun n => (n, 0))
  | '.' :: fr =>
    if fr.all Char.isDigit then
      (digitsToNat (ip ++ fr)).map (fun n => (n, fr.length))
    else none
  | _ => none

/-- Exponent part of a decimal float literal (after the `e`/`E`). -/
def parseExpPart (cs : List Char) : Option Int :=
  let (neg, ds) :=
    match cs with
    | '-' :: r => (true, r)
    | '+' :: r => (false, r)
    | _ => (false, cs)
  (digitsToNat ds).map (fun n => if neg then -(n : Int) else (n : Int))

/-- A finite decimal float literal `±d.d e±d`, as
`(sign, digits, fraction length, exponent)`; the denoted value is
`±(digits / 10^fl) * 10^exp`. -/
def parseDecimalLit (s : String) : Option (Bool × Nat × Nat × Int) :=
  match s.toList with
  | [] => none
  | cs =>
    let (neg, body) :=
      match cs with
      | '-' :: rest => (true, rest)
      | '+' :: rest => (false, rest)
      | _ => (false, cs)
    let (mantPart, expPart) :=
      match body.findIdx? (fun ch => ch = 'e' ∨ ch = 'E') with
      | some i => (body.take i, some (body.drop (i + 1)))
      | none => (body, none)
    match parseMantissa mantPart with
    | none => none
    | some (n, fl) =>
      match expPart with
      | none => some (neg, n, fl, 0)
      | some ec =>
        match parseExpPart ec with
        | none => none
        | some ex => some (neg, n, fl, ex)

/-- `strconv.ParseFloat(s, bitSize)`: parse the decimal literal and
round to the nearest float of the given width; values beyond the
largest finite float of that width round to infinity and report
`ErrRange` (returned as an error here, which is all `Picker.set`
propagates). -/
def ParseFloat (s : String) (bitSize : Nat) : Except String Dyadic :=
  match parseDecimalLit s with
  | none => .error ("strconv.ParseFloat: parsing \"" ++ s ++ "\": invalid syntax")
  | some (neg, n, fl, ex) =>
    let t : Int := ex - (fl : Int)
    let a := if 0 ≤ t then n * 10 ^ t.toNat else n
    let b := if 0 ≤ t then 1 else 10 ^ (-t).toNat
    let r := if bitSize = 32 then roundFrac 24 (-149) neg a b
             else roundFrac 53 (-1074) neg a b
    let maxF := if bitSize = 32 then maxFloat32 else maxFloat64
    if maxF.lt r.abs then
      .error ("strconv.ParseFloat: parsing \"" ++ s ++ "\": value out of range")
    else .ok r

/-- One matching outer pair of parentheses, as `ParseComplex` strips it. -/
def stripParens (cs : List Char) : List Char :=
  match cs with
  | '(' :: rest =>
    if rest.getLast? = some ')' then rest.dropLast else cs
  | _ => cs

/-- Index (from the front, `> 0`) of the last `+`/`-` not preceded by an
exponent marker: the split between real and imaginary part. -/
def lastSignSplit (cs : List Char) : Option Nat :=
  (List.range cs.length).foldl
    (fun acc i =>
      if 0 < i ∧ (cs.getD i ' ' = '+' ∨ cs.getD i ' ' = '-')
          ∧ cs.getD (i - 1) ' ' ≠ 'e' ∧ cs.getD (i - 1) ' ' ≠ 'E' then
        some i
      else acc)
    none

/-- `strconv.ParseComplex(s, bitSize)`: forms `re`, `imi` and `re±imi`,
optionally parenthesized; each component parses at half the width.
(`Inf`/`NaN` component forms are outside the model.) -/
def ParseComplex (s : String) (bitSize : Nat) : Except String (Dyadic × Dyadic) :=
  let half := bitSize / 2
  let bad : Except String (Dyadic × Dyadic) :=
    .error ("strconv.ParseComplex: parsing \"" ++ s ++ "\": invalid syntax")
  let cs := stripParens s.toList
  if cs.getLast? = some 'i' then
    let body := cs.dropLast
    match lastSignSplit body with
    | some i =>
      match ParseFloat (String.mk (body.take i)) half,
            ParseFloat (String.mk (body.drop i)) half with
      | .ok re, .ok im => .ok (re, im)
      | _, _ => bad
    | none =>
      match ParseFloat (String.mk body) half with
      | .ok im => .ok (⟨0, 0⟩, im)
      | _ => bad
  else
    match ParseFloat (String.mk cs) half with
    | .ok re => .ok (re, ⟨0, 0⟩)
    | _ => bad

/-! ## Data model

`reflect` metadata of the destination struct: per-field name, `PkgPath`
(non-empty exactly for unexported fields), type name, kind and tag set.
A struct tag is the ordered key/value list `reflect.StructTag` exposes
through `Get`/`Lookup`.  Field values live in an untyped `Value`; the
destination's methods (for the `Set<Field>` convention) are modelled as
functions from the raw string and current field values to new field
values plus the method's trailing `error` result (`none` for a `nil`
error or a method without results). -/

inductive Kind
  | bool | int | int8 | int16 | int32 | int64
  | uint | uint8 | uint16 | uint32 | uint64
  | float32 | float64 | complex64 | complex128
  | string | other (name : String)
deriving DecidableEq, Repr

def kindName : Kind → String
  | .bool => "bool"
  | .int => "int"
  | .int8 => "int8"
  | .int16 => "int16"
  | .int32 => "int32"
  | .int64 => "int64"
  | .uint => "uint"
  | .uint8 => "uint8"
  | .uint16 => "uint16"
  | .uint32 => "uint32"
  | .uint64 => "uint64"
  | .float32 => "float32"
  | .float64 => "float64"
  | .complex64 => "complex64"
  | .complex128 => "complex128"
  | .string => "string"
  | .other n => n

inductive Value
  | vbool (b : Bool)
  | vint (n : Int)
  | vuint (n : Nat)
  | vfloat (x : Dyadic)
  | vcomplex (re im : Dyadic)
  | vstring (s : String)
  | vother
deriving DecidableEq, Repr

abbrev Tags := List (String × String)

/-- `reflect.StructTag.Lookup`: first entry for the key, if any. -/
def tagLookup (tag : Tags) (key : String) : Option String :=
  (tag.find? (fun pr => pr.1 == key)).map (fun pr => pr.2)

/-- `reflect.StructTag.Get`: `Lookup` with `""` for an absent key. -/
def tagGet (tag : Tags) (key : String) : String :=
  (tagLookup tag key).getD ""

structure Field where
  name : String
  pkgPath : String
  typeName : String
  kind : Kind
  tag : Tags

structure Method where
  name : String
  call : String → List Value → List Value × Option String

structure Dst where
  typeName : String
  fields : List Field
  methods : List Method

/-- The request, through the four pure accessors the engine consumes
(`PathValue`, `URL.Query().Get`, `Header.Get`, `FormValue`) plus method
and body.  `form` is an independent accessor here; whether `FormValue`
consumes the body stream is outside the model. -/
structure Request where
  method : String
  path : String → String
  query : String → String
  header : String → String
  form : String → String
  body : String

/-- A registered `setfn`: receives the field's current value and the raw
string, mutates the field (possibly even when failing) and returns the
error. -/
abbrev Setfn := Value → String → Value × Option String

/-- A body decoder as the engine sees it: built from the body stream by
the registered factory, `Decode(dst)` rewrites the field values or
fails. -/
abbrev DecoderFactory := String → List Value → List Value × Option String

structure Picker where
  registry : List (String × DecoderFactory)
  setters : List (String × Setfn)

/-- `NewPicker`: no content-type decoders, no setter overrides. -/
def NewPicker : Picker := ⟨[], []⟩

/-- `Picker.Register`: Go map assignment; prepending makes the newest
registration for a content type the one `find?` sees. -/
def register (p : Picker) (contentType : String) (fn : DecoderFactory) : Picker :=
  { p with registry := (contentType, fn) :: p.registry }

/-- `Picker.UseSetter`: panics (`none`) when the type is already
registered. -/
def useSetter (p : Picker) (typ : String) (fn : Setfn) : Option Picker :=
  if (p.setters.find? (fun pr => pr.1 == typ)).isSome then none
  else some { p with setters := (typ, fn) :: p.setters }

/-- The no-op decoder: reports success without touching the
destination. -/
def noop : List Value → List Value × Option String :=
  fun vals => (vals, none)

/-- `Picker.newDecoder`: exact content-type lookup in the registry,
falling back to `noop`. -/
def newDecoder (p : Picker) (v : String) (body : String) :
    List Value → List Value × Option String :=
  match p.registry.find? (fun en => en.1 == v) with
  | some en => en.2 body
  | none => noop

/-- The four `valueReaders`.  Go keeps them in a map and ranges over it
in unspecified order; the model fixes one order.  Every claim below
concerns fields carrying at most one source tag, for which the
iteration order is irrelevant. -/
def valueReaders : List (String × (Request → String → String)) :=
  [("path", fun r name => r.path name),
   ("query", fun r name => r.query name),
   ("header", fun r name => r.header name),
   ("form", fun r name => r.form name)]

/-- `readValue`: the first reader whose tag key is present yields the
looked-up value and the source locator `tag[key]`; `none` models
`errTagNotFound`. -/
def readValue (r : Request) (tag : Tags) : Option (String × String) :=
  match valueReaders.find? (fun pr => tagGet tag pr.1 != "") with
  | some (t, fn) => some (fn r (tagGet tag t), t ++ "[" ++ tagGet tag t ++ "]")
  | none => none

/-! ## Validation -/

/-- `minLength`: compares `int64(len(value))` — the UTF-8 byte length —
against the bound parsed with `ParseInt(in, 10, 64)`. -/
def minLength (tag : Tags) (value : String) : Option String :=
  match tagLookup tag "minLength" with
  | none => none
  | some inv =>
    match ParseInt inv 64 with
    | .error e => some e
    | .ok bound => if (value.utf8ByteSize : Int) < bound then some "minLength exceeded" else none

/-- `maxLength`: as `minLength`, with the opposite comparison. -/
def maxLength (tag : Tags) (value : String) : Option String :=
  match tagLookup tag "maxLength" with
  | none => none
  | some inv =>
    match ParseInt inv 64 with
    | .error e => some e
    | .ok bound => if bound < (value.utf8ByteSize : Int) then some "maxLength exceeded" else none

/-- `minimum`: the bound parses with `ParseFloat(min, 32)` — float32
precision — and is compared against `float64(in)`, passed here already
converted (the Go generic widens its argument to `float64`; the numeric
cases below apply the matching conversion). -/
def minimum (tag : Tags) (inF : Dyadic) : Option String :=
  match tagLookup tag "minimum" with
  | none => none
  | some lit =>
    match ParseFloat lit 32 with
    | .error e => some e
    | .ok bound => if inF.lt bound then some "minimum exceeded" else none

/-- `maximum`: bound also parsed with `ParseFloat(_, 32)`;
`float64(in) > value` is `value < float64(in)` on finite floats. -/
def maximum (tag : Tags) (inF : Dyadic) : Option String :=
  match tagLookup tag "maximum" with
  | none => none
  | some lit =>
    match ParseFloat lit 32 with
    | .error e => some e
    | .ok bound => if bound.lt inF then some "maximum exceeded" else none

/-- `minMax`: `minimum` first, then `maximum`. -/
def minMax (tag : Tags) (inF : Dyadic) : Option String :=
  match minimum tag inF with
  | some e => some e
  | none => maximum tag inF

/-! ## `Picker.set` -/

/-- Outcome of `Picker.set` on one field: success with the new field
values, a returned error with the field values as left behind, or a
panic (`fatal`). -/
inductive SetResult
  | ok (vals : List Value)
  | err (vals : List Value) (msg : String)
  | fatal (msg : String)
deriving DecidableEq, Repr

/-- `capitalizeFirstLetter`: byte-wise `ToUpper` of the first byte;
struct field names are non-empty ASCII, where this equals uppercasing
the first character. -/
def capitalizeFirstLetter (s : String) : String :=
  match s.toList with
  | [] => ""
  | c :: cs => String.mk (c.toUpper :: cs)

/-- The companion method name: `Set` + name, with the first letter
capitalized for an unexported field. -/
def setMethodName (f : Field) : String :=
  if f.pkgPath = "" then "Set" ++ f.name else "Set" ++ capitalizeFirstLetter f.name

/-- `reflect.Value.MethodByName` on the destination pointer. -/
def findMethod (d : Dst) (name : String) : Option Method :=
  d.methods.find? (fun mth => mth.name == name)

/-- The type-coercion switch of `Picker.set`: parse by declared kind
(width-specific), run `minMax`/`minLength`/`maxLength` validation, and
only then assign.  `reflect.Uint` and every non-primitive kind have no
case and fall through to the `unsupported` error. -/
def coerceAndSet (f : Field) (vals : List Value) (i : Nat) (val : String) : SetResult :=
  match f.kind with
  | .bool =>
    match ParseBool val with
    | .error e => .err vals e
    | .ok b => .ok (vals.set i (.vbool b))
  | .int =>
    match ParseInt val 64 with
    | .error e => .err vals e
    | .ok n =>
      match minMax f.tag (goFloat64OfInt n) with
      | some e => .err vals e
      | none => .ok (vals.set i (.vint n))
  | .int8 =>
    match ParseInt val 8 with
    | .error e => .err vals e
    | .ok n =>
      match minMax f.tag (goFloat64OfInt n) with
      | some e => .err vals e
      | none => .ok (vals.set i (.vint n))
  | .int16 =>
    match ParseInt val 16 with
    | .error e => .err vals e
    | .ok n =>
      match minMax f.tag (goFloat64OfInt n) with
      | some e => .err vals e
      | none => .ok (vals.set i (.vint n))
  | .int32 =>
    match ParseInt val 32 with
    | .error e => .err vals e
    | .ok n =>
      match minMax f.tag (goFloat64OfInt n) with
      | some e => .err vals e
      | none => .ok (vals.set i (.vint n))
  | .int64 =>
    match ParseInt val 64 with
    | .error e => .err vals e
    | .ok n =>
      match minMax f.tag (goFloat64OfInt n) with
      | some e => .err vals e
      | none => .ok (vals.set i (.vint n))
  | .uint8 =>
    match ParseUint val 8 with
    | .error e => .err vals e
    | .ok n =>
      match minMax f.tag (goFloat64OfNat n) with
      | some e => .err vals e
      | none => .ok (vals.set i (.vuint n))
  | .uint16 =>
    match ParseUint val 16 with
    | .error e => .err vals e
    | .ok n =>
      match minMax f.tag (goFloat64OfNat n) with
      | some e => .err vals e
      | none => .ok (vals.set i (.vuint n))
  | .uint32 =>
    match ParseUint val 32 with
    | .error e => .err vals e
    | .ok n =>
      match minMax f.tag (goFloat64OfNat n) with
      | some e => .err vals e
      | none => .ok (vals.set i (.vuint n))
  | .uint64 =>
    match ParseUint val 64 with
    | .error e => .err vals e
    | .ok n =>
      match minMax f.tag (goFloat64OfNat n) with
      | some e => .err vals e
      | none => .ok (vals.set i (.vuint n))
  | .float32 =>
    match ParseFloat val 32 with
    | .error e => .err vals e
    | .ok x =>
      match minMax f.tag x with
      | some e => .err vals e
      | none => .ok (vals.set i (.vfloat x))
  | .float64 =>
    match ParseFloat val 64 with
    | .error e => .err vals e
    | .ok x =>
      match minMax f.tag x with
      | some e => .err vals e
      | none => .ok (vals.set i (.vfloat x))
  | .complex64 =>
    match ParseComplex val 64 with
    | .error e => .err vals e
    | .ok z => .ok (vals.set i (.vcomplex z.1 z.2))
  | .complex128 =>
    match ParseComplex val 128 with
    | .error e => .err vals e
    | .ok z => .ok (vals.set i (.vcomplex z.1 z.2))
  | .string =>
    match minLength f.tag val with
    | some e => .err vals e
    | none =>
      match maxLength f.tag val with
      | some e => .err vals e
      | none => .ok (vals.set i (.vstring val))
  | k => .err vals ("set " ++ kindName k ++ ": unsupported")

/-- `Picker.set`: skip the empty value; prefer the companion
`Set<Field>` method (whose last result, if any, is the returned error,
with any receiver mutation kept either way); panic on an unexported
field without one; then the registered per-type setter; then the
coercion switch. -/
def setField (p : Picker) (d : Dst) (vals : List Value) (i : Nat) (f : Field)
    (val : String) : SetResult :=
  if val = "" then .ok vals
  else
    match findMethod d (setMethodName f) with
    | some mth =>
      let res := mth.call val vals
      match res.2 with
      | some e => .err res.1 e
      | none => .ok res.1
    | none =>
      if f.pkgPath ≠ "" then
        .fatal ("private field " ++ f.name ++ ", missing " ++ setMethodName f)
      else
        match p.setters.find? (fun pr => pr.1 == f.typeName) with
        | some pr =>
          let res := pr.2 (vals.getD i .vother) val
          match res.2 with
          | some e => .err (vals.set i res.1) e
          | none => .ok (vals.set i res.1)
        | none => coerceAndSet f vals i val

/-! ## `Picker.Pick` -/

structure PickError where
  dest : String
  source : String
  cause : String
deriving DecidableEq, Repr

inductive PickResult
  | ok (vals : List Value)
  | err (vals : List Value) (e : PickError)
  | fatal (msg : String)
deriving DecidableEq, Repr

/-- The destination argument of `Pick`: a pointer to a struct, or
anything else (`reflect.TypeOf(dst).Kind() != reflect.Ptr`), carrying
that other kind's name. -/
inductive AnyDst
  | ptrTo (d : Dst) (vals : List Value)
  | nonPtr (kind : String)

/-- The field loop of `Pick` over `(index, field)` pairs: resolve each
field's raw value (skipping fields with no recognized source tag), set
it, and stop at the first error or panic.  A `PickError`'s `Dest` is
`type.Field` and its `Source` the locator from `readValue`. -/
def pickLoop (p : Picker) (d : Dst) (r : Request) :
    List Value → List (Nat × Field) → PickResult
  | vals, [] => .ok vals
  | vals, (i, f) :: rest =>
    match readValue r f.tag with
    | none => pickLoop p d r vals rest
    | some (val, source) =>
      match setField p d vals i f val with
      | .ok newVals => pickLoop p d r newVals rest
      | .err v e => .err v ⟨d.typeName ++ "." ++ f.name, source, e⟩
      | .fatal msg => .fatal msg

/-- The body phase of `Pick`: methods GET, HEAD and DELETE cannot have
a body for decoding and skip this entirely; otherwise the decoder
resolved from the `content-type` header runs once against the whole
destination, and its failure is a `body`-sourced error.  (A `Pick`
error's `Dest` here is `fmt.Sprintf("%T", dst)[1:]`: the pointer type
name with the leading `*` dropped, i.e. the struct type name.) -/
def bodyPhase (p : Picker) (d : Dst) (vals : List Value) (r : Request) : PickResult :=
  if r.method = "GET" ∨ r.method = "HEAD" ∨ r.method = "DELETE" then .ok vals
  else
    let res := newDecoder p (r.header "content-type") r.body vals
    match res.2 with
    | some cause => .err res.1 ⟨d.typeName, "body", cause⟩
    | none => .ok res.1

/-- `Picker.Pick`: panic unless the destination is a pointer; then the
body phase; then the field loop in declaration order. -/
def pick (p : Picker) (dst : AnyDst) (r : Request) : PickResult :=
  match dst with
  | .nonPtr _ => .fatal "Pick(dst, r): dst must be a pointer"
  | .ptrTo d vals =>
    match bodyPhase p d vals r with
    | .ok vals2 => pickLoop p d r vals2 d.fields.enum
    | .err v e => .err v e
    | .fatal msg => .fatal msg

/-! ## Concrete fixtures

Concrete pickers, destinations and requests used to instantiate the
claim theorems below. -/

/-- A decoder factory standing in for `json.NewDecoder`: succeeds only
on one well-formed body, failing with a decode error otherwise. -/
def jsonStub : DecoderFactory :=
  fun body vals =>
    if body = "\x7bok:1\x7d" then (vals, none)
    else (vals, some "invalid character after top-level value")

/-- A picker with the JSON stub registered for `application/json`. -/
def fixPicker : Picker := ⟨[("application/json", jsonStub)], []⟩

/-- A GET request with a malformed JSON body, a `content-type` header
and an `age` header of `200`. -/
def fixReqGet : Request :=
  ⟨"GET", fun _ => "", fun _ => "",
   fun k => if k = "content-type" then "application/json"
            else if k = "age" then "200" else "",
   fun _ => "", "\x7bbroken"⟩

/-- A destination with a single bounded `Age int` field. -/
def fixDstAge : Dst :=
  ⟨"xr.Input",
   [⟨"Age", "", "int", .int, [("header", "age"), ("minimum", "0"), ("maximum", "130")]⟩],
   []⟩

/-- A POST request carrying `n=abc` and `s=hello` headers. -/
def fixReqPost : Request :=
  ⟨"POST", fun _ => "", fun _ => "",
   fun k => if k = "n" then "abc" else if k = "s" then "hello" else "",
   fun _ => "", ""⟩

/-- Two fields that both fail on `fixReqPost`: `N int` gets `abc` and
`S string` has an impossible `minLength`. -/
def fixDstTwoBad : Dst :=
  ⟨"xr.Pair",
   [⟨"N", "", "int", .int, [("header", "n")]⟩,
    ⟨"S", "", "string", .string, [("header", "s"), ("minLength", "99")]⟩],
   []⟩

/-- A destination with an unexported field `token` and no companion
`SetToken` method. -/
def fixDstPrivate : Dst :=
  ⟨"xr.Secret",
   [⟨"token", "xr", "string", .string, [("header", "s")]⟩],
   []⟩

/-- The companion method of `fixDstWithMethod`: records the raw string
in field 0 and returns no error. -/
def fixSetColor : Method :=
  ⟨"SetColor", fun v vals => (vals.set 0 (.vstring v), none)⟩

/-- A field of custom type `xr.Color` with a `header:"s"` tag. -/
def fixFieldColor : Field := ⟨"Color", "", "xr.Color", .other "struct", [("header", "s")]⟩

/-- A destination whose field has a companion `SetColor` method. -/
def fixDstWithMethod : Dst := ⟨"xr.Painted", [fixFieldColor], [fixSetColor]⟩

/-- A registered setter override for type `xr.Color`. -/
def fixSetterFn : Setfn := fun _ v => (.vstring ("#" ++ v), none)

/-- A picker with only the `xr.Color` setter override registered. -/
def fixPickerWithSetter : Picker := ⟨[], [("xr.Color", fixSetterFn)]⟩

/-- A field with a source tag whose header is absent from `fixReqGet`
(resolves to the empty string). -/
def fixFieldOpt : Field := ⟨"Opt", "", "string", .string, [("header", "missing")]⟩

/-- A destination holding only `fixFieldOpt`. -/
def fixDstOpt : Dst := ⟨"xr.Opt", [fixFieldOpt], []⟩

/-- A numeric tag set with both bounds. -/
def fixTagMinMax : Tags := [("minimum", "100"), ("maximum", "200")]

/-- A string tag set with a `minLength` bound. -/
def fixTagMinLen : Tags := [("minLength", "3")]

/-! ## Semantics of the float model -/

theorem toRat_lt_same_exp (a b e : Int) :
    Dyadic.toRat ⟨a, e⟩ < Dyadic.toRat ⟨b, e⟩ ↔ a < b := by
  unfold Dyadic.toRat
  have h2 : (0 : ℚ) < (2 : ℚ) ^ e := by positivity
  rw [mul_lt_mul_right h2]
  exact_mod_cast Iff.rfl

theorem toRat_shift (m e : Int) (k : Nat) :
    Dyadic.toRat ⟨m, e + k⟩ = Dyadic.toRat ⟨m * (2 : Int) ^ k, e⟩ := by
  unfold Dyadic.toRat
  rw [zpow_add₀ (by norm_num : (2 : ℚ) ≠ 0), zpow_natCast]
  push_cast
  ring

/-- `Dyadic.lt` agrees with the rational (equivalently, IEEE) order on
finite floats. -/
theorem Dyadic.lt_iff (x y : Dyadic) : x.lt y = true ↔ x.toRat < y.toRat := by
  unfold Dyadic.lt
  rcases le_or_lt x.e y.e with h | h
  · rw [if_pos h, decide_eq_true_eq]
    have hy : y.e = x.e + (y.e - x.e).toNat := by omega
    have : y.toRat = Dyadic.toRat ⟨y.m * (2 : Int) ^ (y.e - x.e).toNat, x.e⟩ := by
      rw [← toRat_shift, ← hy]
    rw [this, show x.toRat = Dyadic.toRat ⟨x.m, x.e⟩ from rfl, toRat_lt_same_exp]
  · rw [if_neg (not_le.mpr h), decide_eq_true_eq]
    have hx : x.e = y.e + (x.e - y.e).toNat := by omega
    have : x.toRat = Dyadic.toRat ⟨x.m * (2 : Int) ^ (x.e - y.e).toNat, y.e⟩ := by
      rw [← toRat_shift, ← hx]
    rw [this, show y.toRat = Dyadic.toRat ⟨y.m, y.e⟩ from rfl, toRat_lt_same_exp]

theorem log2Fuel_spec : ∀ f n : Nat, n ≤ f → 1 ≤ n →
    2 ^ log2Fuel f n ≤ n ∧ n < 2 ^ (log2Fuel f n + 1) := by
  intro f
  induction f with
  | zero => intro n hf h1; omega
  | succ f ih =>
    intro n hf h1
    by_cases hn : n ≤ 1
    · have hone : n = 1 := by omega
      subst hone
      simp [log2Fuel]
    · have hrec := ih (n / 2) (by omega) (by omega)
      simp only [log2Fuel, if_neg hn]
      obtain ⟨hlo, hhi⟩ := hrec
      have e1 : 2 ^ (log2Fuel f (n / 2) + 1) = 2 * 2 ^ log2Fuel f (n / 2) := by
        rw [pow_succ]; ring
      have e2 : 2 ^ (log2Fuel f (n / 2) + 1 + 1) = 2 * 2 ^ (log2Fuel f (n / 2) + 1) := by
        rw [pow_succ (2 : Nat) (log2Fuel f (n / 2) + 1)]; ring
      omega

theorem natLog2_spec (n : Nat) (h1 : 1 ≤ n) :
    2 ^ natLog2 n ≤ n ∧ n < 2 ^ (natLog2 n + 1) :=
  log2Fuel_spec n n le_rfl h1

theorem fracLog2_one (a : Nat) (ha : 1 ≤ a) : fracLog2 a 1 = (natLog2 a : Int) := by
  have hone : natLog2 1 = 0 := rfl
  have hle := (natLog2_spec a ha).1
  unfold fracLog2
  rw [hone]
  have hshift : powShiftLe 1 ((natLog2 a : Int)) a = true := by
    unfold powShiftLe
    rw [if_pos (by positivity), decide_eq_true_eq]
    simpa using hle
  simp [hshift]

theorem toRat_pm (neg : Bool) (M : Nat) (g : Int) :
    Dyadic.toRat ⟨if neg then -(M : Int) else (M : Int), g⟩ =
      (if neg then -(M : ℚ) else (M : ℚ)) * (2 : ℚ) ^ g := by
  cases neg <;> simp [Dyadic.toRat]

/-- Rounding is exact on integers within the precision: an `a ≤ 2^p`
(with a sane subnormal range) is returned unchanged. -/
theorem roundFrac_int (p : Nat) (emin : Int) (neg : Bool) (a : Nat)
    (hp : 1 ≤ p) (hemin : emin ≤ 1 - (p : Int)) (ha : a ≤ 2 ^ p) :
    (roundFrac p emin neg a 1).toRat = if neg then -(a : ℚ) else (a : ℚ) := by
  by_cases h0 : a = 0
  · subst h0
    cases neg <;> simp [roundFrac, Dyadic.toRat]
  · have ha1 : 1 ≤ a := by omega
    obtain ⟨hlo, hhi⟩ := natLog2_spec a ha1
    have hLp : natLog2 a ≤ p := by
      by_contra hc
      push_neg at hc
      have : 2 ^ p < 2 ^ natLog2 a := Nat.pow_lt_pow_right (by norm_num) hc
      omega
    simp only [roundFrac, if_neg h0, fracLog2_one a ha1]
    rcases Nat.lt_or_ge (natLog2 a) p with hcase | hcase
    · -- the integer is below 2^p: the ulp exponent is ≤ 0 and rounding is exact
      have hmax : max ((natLog2 a : Int) - ((p : Int) - 1)) emin
          = (natLog2 a : Int) - ((p : Int) - 1) := by
        apply max_eq_left
        omega
      rw [hmax]
      rcases eq_or_lt_of_le (show (natLog2 a : Int) - ((p : Int) - 1) ≤ 0 by omega)
        with hg0 | hgneg
      · rw [hg0]
        have hM : roundAtExp a 1 0 = a := by
          simp [roundAtExp, Nat.mod_one, Nat.div_one]
        rw [hM, toRat_pm]
        cases neg <;> simp
      · have hple : ¬ ((p : Int) ≤ (natLog2 a : Int) + 1) := by omega
        have hd : (-((natLog2 a : Int) - ((p : Int) - 1))).toNat
            = p - 1 - natLog2 a := by omega
        have hM : roundAtExp a 1 ((natLog2 a : Int) - ((p : Int) - 1))
            = a * 2 ^ (p - 1 - natLog2 a) := by
          simp [roundAtExp, hple, hd, Nat.mod_one, Nat.div_one]
        rw [hM, toRat_pm]
        have hgval : (natLog2 a : Int) - ((p : Int) - 1)
            = -((p - 1 - natLog2 a : Nat) : Int) := by omega
        have hcast : ((a * 2 ^ (p - 1 - natLog2 a) : Nat) : ℚ) * (2 : ℚ)
            ^ ((natLog2 a : Int) - ((p : Int) - 1)) = (a : ℚ) := by
          rw [hgval, zpow_neg, zpow_natCast]
          push_cast
          rw [mul_assoc, mul_inv_cancel₀ (by positivity), mul_one]
        have hneg : -((a * 2 ^ (p - 1 - natLog2 a) : Nat) : ℚ) * (2 : ℚ)
            ^ ((natLog2 a : Int) - ((p : Int) - 1)) = -(a : ℚ) := by
          rw [neg_mul, hcast]
        cases neg
        · simpa using hcast
        · simpa using hneg
    · -- natLog2 a = p forces a = 2^p; the ulp exponent is 1 and a/2 is exact
      have hLeq : natLog2 a = p := le_antisymm hLp hcase
      have haeq : a = 2 ^ p := by
        rw [hLeq] at hlo
        omega
      have hmax : max ((natLog2 a : Int) - ((p : Int) - 1)) emin = 1 := by
        rw [hLeq]
        have : ((p : Int)) - ((p : Int) - 1) = 1 := by ring
        rw [this]
        apply max_eq_left
        omega
      rw [hmax]
      have hps : (2 : Nat) ^ p = 2 ^ (p - 1) * 2 := by
        rw [← pow_succ]
        congr 1
        omega
      have hM : roundAtExp a 1 1 = 2 ^ (p - 1) := by
        simp only [roundAtExp]
        norm_num
        rw [haeq, hps]
        simp [Nat.mul_div_cancel, Nat.mul_mod_left]
      rw [hM, toRat_pm]
      have hcast : ((2 ^ (p - 1) : Nat) : ℚ) * (2 : ℚ) ^ (1 : Int) = (a : ℚ) := by
        rw [haeq]
        push_cast
        rw [zpow_one, ← pow_succ]
        congr 1
        omega
      have hneg : -((2 ^ (p - 1) : Nat) : ℚ) * (2 : ℚ) ^ (1 : Int) = -(a : ℚ) := by
        rw [neg_mul, hcast]
      cases neg
      · simpa using hcast
      · simpa using hneg

/-- `float64(v)` is exact for integers of magnitude up to `2^53`. -/
theorem goFloat64OfInt_toRat (v : Int) (hv : v.natAbs ≤ 2 ^ 53) :
    (goFloat64OfInt v).toRat = (v : ℚ) := by
  unfold goFloat64OfInt
  rw [roundFrac_int 53 (-1074) _ _ (by norm_num) (by norm_num) hv]
  rcases lt_or_ge v 0 with h | h
  · rw [if_pos (by simpa using h), Int.cast_natAbs, abs_of_neg h]
    push_cast
    ring
  · rw [if_neg (by simpa using not_lt.mpr h), Int.cast_natAbs, abs_of_nonneg h]

/-- `float64(v)` is exact for naturals up to `2^53`. -/
theorem goFloat64OfNat_toRat (v : Nat) (hv : v ≤ 2 ^ 53) :
    (goFloat64OfNat v).toRat = (v : ℚ) := by
  unfold goFloat64OfNat
  rw [roundFrac_int 53 (-1074) _ _ (by norm_num) (by norm_num) hv]
  simp

/-! ## Engine lemmas -/

/-- The field loop decomposes over list concatenation. -/
theorem pickLoop_append (p : Picker) (d : Dst) (r : Request) (vals : List Value)
    (xs ys : List (Nat × Field)) :
    pickLoop p d r vals (xs ++ ys) =
      match pickLoop p d r vals xs with
      | .ok v => pickLoop p d r v ys
      | .err v e => .err v e
      | .fatal msg => .fatal msg := by
  induction xs generalizing vals with
  | nil => rfl
  | cons hd tl ih =>
    obtain ⟨i, f⟩ := hd
    simp only [List.cons_append, pickLoop]
    cases hrv : readValue r f.tag with
    | none => exact ih vals
    | some pr =>
      obtain ⟨val, source⟩ := pr
      show (match setField p d vals i f val with
            | .ok newVals => pickLoop p d r newVals (tl ++ ys)
            | .err v e => .err v ⟨d.typeName ++ "." ++ f.name, source, e⟩
            | .fatal msg => .fatal msg) =
          match (match setField p d vals i f val with
                 | .ok newVals => pickLoop p d r newVals tl
                 | .err v e => .err v ⟨d.typeName ++ "." ++ f.name, source, e⟩
                 | .fatal msg => .fatal msg) with
          | .ok v => pickLoop p d r v ys
          | .err v e => .err v e
          | .fatal msg => .fatal msg
      cases hsf : setField p d vals i f val with
      | ok nv => exact ih nv
      | err v e => rfl
      | fatal msg => rfl

/-- A locator produced by `readValue` is never the string `body`. -/
theorem readValue_source_ne_body (r : Request) (tag : Tags) (val source : String)
    (h : readValue r tag = some (val, source)) : source ≠ "body" := by
  unfold readValue at h
  cases hf : valueReaders.find? (fun pr => tagGet tag pr.1 != "") with
  | none => rw [hf] at h; cases h
  | some pr =>
    obtain ⟨t, fn⟩ := pr
    rw [hf] at h
    have hmem : (t, fn) ∈ valueReaders := List.mem_of_find?_eq_some hf
    injection h with h1
    have hsrc : source = t ++ "[" ++ tagGet tag t ++ "]" := by
      have := congrArg Prod.snd h1
      simpa using this.symm
    have hlen : 4 ≤ t.length := by
      simp only [valueReaders, List.mem_cons] at hmem
      rcases hmem with h | h | h | h | h <;>
        (try exact absurd h (List.not_mem_nil _)) <;>
        (first
          | (have ht : t = "path" := congrArg Prod.fst h; subst ht; decide)
          | (have ht : t = "query" := congrArg Prod.fst h; subst ht; decide)
          | (have ht : t = "header" := congrArg Prod.fst h; subst ht; decide)
          | (have ht : t = "form" := congrArg Prod.fst h; subst ht; decide))
    intro hbody
    rw [hsrc] at hbody
    have := congrArg String.length hbody
    simp only [String.length_append] at this
    have h1l : ("[" : String).length = 1 := rfl
    have h2l : ("]" : String).length = 1 := rfl
    have h3l : ("body" : String).length = 4 := rfl
    omega

/-- The coercion switch leaves the field values untouched whenever it
returns an error: assignment happens only after parsing and validation
succeed. -/
theorem coerceAndSet_err (f : Field) (vals : List Value) (i : Nat) (val : String) :
    ∀ v e, coerceAndSet f vals i val = .err v e → v = vals := by
  intro v e h
  unfold coerceAndSet at h
  repeat' split at h
  all_goals first
    | (injection h with h1 h2; exact h1.symm)
    | injection h

/-- The coercion switch never panics. -/
theorem coerceAndSet_no_fatal (f : Field) (vals : List Value) (i : Nat) (val : String) :
    ∀ msg, coerceAndSet f vals i val ≠ .fatal msg := by
  intro msg h
  unfold coerceAndSet at h
  repeat' split at h
  all_goals injection h

/-- Setting an exported field never panics. -/
theorem setField_no_fatal (p : Picker) (d : Dst) (vals : List Value) (i : Nat)
    (f : Field) (val : String) (hpub : f.pkgPath = "") :
    ∀ msg, setField p d vals i f val ≠ .fatal msg := by
  intro msg h
  unfold setField at h
  split at h
  · injection h
  · split at h
    · rename_i mth heq
      cases hres : (mth.call val vals).2 <;> simp only [hres] at h <;> injection h
    · rw [if_neg (by simp [hpub])] at h
      split at h
      · rename_i pr heq
        cases hres : (pr.2 (vals.getD i Value.vother) val).2 <;>
          simp only [hres] at h <;> injection h
      · exact coerceAndSet_no_fatal f vals i val msg h

/-- The field loop over exported fields never panics. -/
theorem pickLoop_no_fatal (p : Picker) (d : Dst) (r : Request) :
    ∀ (l : List (Nat × Field)) (vals : List Value),
      (∀ pr ∈ l, (Prod.snd pr).pkgPath = "") →
      ∀ msg, pickLoop p d r vals l ≠ .fatal msg := by
  intro l
  induction l with
  | nil => intro vals _ msg h; cases h
  | cons hd tl ih =>
    intro vals hpub msg h
    obtain ⟨i, f⟩ := hd
    cases hrv : readValue r f.tag with
    | none =>
      simp only [pickLoop, hrv] at h
      exact ih vals (fun pr hpr => hpub pr (List.mem_cons_of_mem _ hpr)) msg h
    | some pr =>
      obtain ⟨val, source⟩ := pr
      cases hsf : setField p d vals i f val with
      | ok nv =>
        simp only [pickLoop, hrv, hsf] at h
        exact ih nv (fun pr hpr => hpub pr (List.mem_cons_of_mem _ hpr)) msg h
      | err v e =>
        simp only [pickLoop, hrv, hsf] at h
        injection h
      | fatal m =>
        exact setField_no_fatal p d vals i f val
          (hpub (i, f) (List.mem_cons_self _ _)) m hsf

/-- The body phase either succeeds or returns a `body`-sourced error;
it never panics. -/
theorem bodyPhase_no_fatal (p : Picker) (d : Dst) (vals : List Value) (r : Request)
    (msg : String) : bodyPhase p d vals r ≠ .fatal msg := by
  intro h
  unfold bodyPhase at h
  split at h
  · injection h
  · cases hres : (newDecoder p (r.header "content-type") r.body vals).2 <;>
      simp only [hres] at h <;> injection h

/-- `readValue` only consults the four request accessors. -/
theorem readValue_congr (r r2 : Request) (tag : Tags)
    (hp : r.path = r2.path) (hq : r.query = r2.query)
    (hh : r.header = r2.header) (hf : r.form = r2.form) :
    readValue r tag = readValue r2 tag := by
  unfold readValue
  cases hfind : valueReaders.find? (fun pr => tagGet tag pr.1 != "") with
  | none => rfl
  | some pr =>
    obtain ⟨t, fn⟩ := pr
    have hmem : (t, fn) ∈ valueReaders := List.mem_of_find?_eq_some hfind
    simp only [valueReaders, List.mem_cons] at hmem
    rcases hmem with h | h | h | h | h <;>
      (try exact absurd h (List.not_mem_nil _)) <;>
      (have hfn := congrArg Prod.snd h; subst hfn; simp [hp, hq, hh, hf])

/-- `Picker.set` only consults the picker's setter registry, never the
decoder registry. -/
theorem setField_congr (p p2 : Picker) (d : Dst) (vals : List Value) (i : Nat)
    (f : Field) (val : String) (hs : p.setters = p2.setters) :
    setField p d vals i f val = setField p2 d vals i f val := by
  unfold setField
  rw [hs]

/-- The field loop ignores the decoder registry and the request body. -/
theorem pickLoop_congr (p p2 : Picker) (d : Dst) (r r2 : Request)
    (hs : p.setters = p2.setters) (hp : r.path = r2.path) (hq : r.query = r2.query)
    (hh : r.header = r2.header) (hf : r.form = r2.form) :
    ∀ (vals : List Value) (l : List (Nat × Field)),
      pickLoop p d r vals l = pickLoop p2 d r2 vals l := by
  intro vals l
  induction l generalizing vals with
  | nil => rfl
  | cons hd tl ih =>
    obtain ⟨i, f⟩ := hd
    have hr := readValue_congr r r2 f.tag hp hq hh hf
    simp only [pickLoop, hr]
    cases hrv : readValue r2 f.tag with
    | none => exact ih vals
    | some pr =>
      obtain ⟨val, source⟩ := pr
      have hsfc := setField_congr p p2 d vals i f val hs
      show (match setField p d vals i f val with
            | .ok newVals => pickLoop p d r newVals tl
            | .err v e => .err v ⟨d.typeName ++ "." ++ f.name, source, e⟩
            | .fatal msg => .fatal msg) =
          match setField p2 d vals i f val with
          | .ok newVals => pickLoop p2 d r2 newVals tl
          | .err v e => .err v ⟨d.typeName ++ "." ++ f.name, source, e⟩
          | .fatal msg => .fatal msg
      rw [hsfc]
      cases hsf : setField p2 d vals i f val with
      | ok nv => exact ih nv
      | err v e => rfl
      | fatal msg => rfl

/-- An error out of the field loop always carries a `tag[key]` locator,
never `body`. -/
theorem pickLoop_err_source (p : Picker) (d : Dst) (r : Request) :
    ∀ (l : List (Nat × Field)) (vals v : List Value) (e : PickError),
      pickLoop p d r vals l = .err v e → e.source ≠ "body" := by
  intro l
  induction l with
  | nil => intro vals v e h; cases h
  | cons hd tl ih =>
    intro vals v e h
    obtain ⟨i, f⟩ := hd
    cases hrv : readValue r f.tag with
    | none =>
      simp only [pickLoop, hrv] at h
      exact ih vals v e h
    | some pr =>
      obtain ⟨val, source⟩ := pr
      cases hsf : setField p d vals i f val with
      | ok nv =>
        simp only [pickLoop, hrv, hsf] at h
        exact ih nv v e h
      | err v2 e2 =>
        simp only [pickLoop, hrv, hsf] at h
        injection h with h1 h2
        subst h2
        exact readValue_source_ne_body r f.tag val source hrv
      | fatal msg =>
        simp only [pickLoop, hrv, hsf] at h
        injection h

/-! ## Claims -/

/-- C1: for every destination record and every request whose method is
GET, HEAD or DELETE, `Pick` performs no body decoding: the body phase
succeeds without touching the destination, `Pick` goes straight to the
field loop, the outcome is unchanged under any decoder registry and any
body content (so no registered decoder runs and the body is never
read), and any returned error is not body-sourced. -/
theorem c1_safe_methods_skip_body (p : Picker) (d : Dst) (vals : List Value)
    (r : Request)
    (h : r.method = "GET" ∨ r.method = "HEAD" ∨ r.method = "DELETE") :
    bodyPhase p d vals r = .ok vals
    ∧ pick p (.ptrTo d vals) r = pickLoop p d r vals d.fields.enum
    ∧ (∀ (reg : List (String × DecoderFactory)) (body2 : String),
        pick { p with registry := reg } (.ptrTo d vals) { r with body := body2 }
          = pick p (.ptrTo d vals) r)
    ∧ (∀ (v : List Value) (e : PickError),
        pick p (.ptrTo d vals) r = .err v e → e.source ≠ "body") := by
  have hbp : bodyPhase p d vals r = .ok vals := by
    unfold bodyPhase
    rw [if_pos h]
  have hpick : pick p (.ptrTo d vals) r = pickLoop p d r vals d.fields.enum := by
    simp only [pick, hbp]
  refine ⟨hbp, hpick, ?_, ?_⟩
  · intro reg body2
    have hbp2 : bodyPhase { p with registry := reg } d vals { r with body := body2 }
        = .ok vals := by
      unfold bodyPhase
      rw [if_pos (show ({ r with body := body2 } : Request).method = "GET"
        ∨ ({ r with body := body2 } : Request).method = "HEAD"
        ∨ ({ r with body := body2 } : Request).method = "DELETE" from h)]
    have : pick { p with registry := reg } (.ptrTo d vals) { r with body := body2 }
        = pickLoop { p with registry := reg } d { r with body := body2 } vals
          d.fields.enum := by
      simp only [pick, hbp2]
    rw [this, hpick]
    exact pickLoop_congr { p with registry := reg } p d { r with body := body2 } r
      rfl rfl rfl rfl rfl vals d.fields.enum
  · intro v e hpe
    rw [hpick] at hpe
    exact pickLoop_err_source p d r d.fields.enum vals v e hpe

/-- Witness for C1: a concrete GET request with a registered JSON
decoder, a `content-type: application/json` header and a malformed
body. -/
theorem c1_safe_methods_skip_body_witness :
    (fixReqGet.method = "GET" ∨ fixReqGet.method = "HEAD" ∨ fixReqGet.method = "DELETE")
    ∧ (bodyPhase fixPicker fixDstAge [.vint 0] fixReqGet = .ok [.vint 0]
      ∧ pick fixPicker (.ptrTo fixDstAge [.vint 0]) fixReqGet
          = pickLoop fixPicker fixDstAge fixReqGet [.vint 0] fixDstAge.fields.enum
      ∧ (∀ (reg : List (String × DecoderFactory)) (body2 : String),
          pick { fixPicker with registry := reg } (.ptrTo fixDstAge [.vint 0])
              { fixReqGet with body := body2 }
            = pick fixPicker (.ptrTo fixDstAge [.vint 0]) fixReqGet)
      ∧ (∀ (v : List Value) (e : PickError),
          pick fixPicker (.ptrTo fixDstAge [.vint 0]) fixReqGet = .err v e
            → e.source ≠ "body")) :=
  ⟨Or.inl rfl, c1_safe_methods_skip_body fixPicker fixDstAge [.vint 0] fixReqGet
    (Or.inl rfl)⟩

/-- C2: binding is stop-on-first-error.  If the fields before position
`i` process from `vals` to `vals1` and field `(i, f)` resolves to a
value on which `set` fails, the loop returns a Bind Error naming
exactly that field and its source locator, the destination is left at
the state `set` left behind, and every later field — whatever it is,
failing or not — is never coerced, validated or assigned. -/
theorem c2_stop_on_first_error (p : Picker) (d : Dst) (r : Request)
    (vals vals1 v1 : List Value) (pre : List (Nat × Field)) (i : Nat) (f : Field)
    (val src e : String)
    (hpre : pickLoop p d r vals pre = .ok vals1)
    (hread : readValue r f.tag = some (val, src))
    (hfail : setField p d vals1 i f val = .err v1 e) :
    ∀ rest : List (Nat × Field),
      pickLoop p d r vals (pre ++ (i, f) :: rest)
        = .err v1 ⟨d.typeName ++ "." ++ f.name, src, e⟩ := by
  intro rest
  rw [pickLoop_append, hpre]
  simp only [pickLoop, hread, hfail]

/-- Witness for C2: two fields that both fail in declaration order
(`N int` gets `abc`; `S string` violates `minLength:"99"`); only the
first is reported, the second stays untouched. -/
theorem c2_stop_on_first_error_witness :
    (pickLoop fixPicker fixDstTwoBad fixReqPost [.vint 0, .vstring ""] [] =
        .ok [.vint 0, .vstring ""])
    ∧ (readValue fixReqPost [("header", "n")] = some ("abc", "header[n]"))
    ∧ (setField fixPicker fixDstTwoBad [.vint 0, .vstring ""] 0
        ⟨"N", "", "int", .int, [("header", "n")]⟩ "abc"
        = .err [.vint 0, .vstring ""] "strconv.ParseInt: parsing \"abc\": invalid syntax")
    ∧ (setField fixPicker fixDstTwoBad [.vint 0, .vstring ""] 1
        ⟨"S", "", "string", .string, [("header", "s"), ("minLength", "99")]⟩ "hello"
        = .err [.vint 0, .vstring ""] "minLength exceeded")
    ∧ pickLoop fixPicker fixDstTwoBad fixReqPost [.vint 0, .vstring ""]
        ([] ++ (0, ⟨"N", "", "int", .int, [("header", "n")]⟩)
          :: [(1, ⟨"S", "", "string", .string, [("header", "s"), ("minLength", "99")]⟩)])
        = .err [.vint 0, .vstring ""]
            ⟨"xr.Pair.N", "header[n]", "strconv.ParseInt: parsing \"abc\": invalid syntax"⟩ :=
  ⟨rfl, rfl, rfl, rfl,
    c2_stop_on_first_error fixPicker fixDstTwoBad fixReqPost
      [.vint 0, .vstring ""] [.vint 0, .vstring ""] [.vint 0, .vstring ""] [] 0
      ⟨"N", "", "int", .int, [("header", "n")]⟩ "abc" "header[n]"
      "strconv.ParseInt: parsing \"abc\": invalid syntax" rfl rfl rfl
      [(1, ⟨"S", "", "string", .string, [("header", "s"), ("minLength", "99")]⟩)]⟩

/-- C5: a field whose resolved raw value is the empty string is skipped
entirely: `set` succeeds leaving the field values untouched — for every
picker, destination, index and field, so neither a setter nor coercion
nor validation can act — and the field loop continues with the
remaining fields, producing no error for this field. -/
theorem c5_empty_value_skips (p : Picker) (d : Dst) (r : Request)
    (vals : List Value) (i : Nat) (f : Field) :
    setField p d vals i f "" = .ok vals
    ∧ (∀ (src : String) (rest : List (Nat × Field)),
        readValue r f.tag = some ("", src) →
        pickLoop p d r vals ((i, f) :: rest) = pickLoop p d r vals rest) := by
  have hsf : setField p d vals i f "" = .ok vals := by
    unfold setField
    rw [if_pos rfl]
  refine ⟨hsf, ?_⟩
  intro src rest hrv
  simp only [pickLoop, hrv, hsf]

/-- Witness for C5: a `header:"missing"` field on a request without
that header resolves to `""` and is skipped. -/
theorem c5_empty_value_skips_witness :
    (readValue fixReqGet fixFieldOpt.tag = some ("", "header[missing]"))
    ∧ (setField fixPicker fixDstOpt [.vint 7] 0 fixFieldOpt "" = .ok [.vint 7])
    ∧ pickLoop fixPicker fixDstOpt fixReqGet [.vint 7] [(0, fixFieldOpt)]
        = pickLoop fixPicker fixDstOpt fixReqGet [.vint 7] [] :=
  ⟨rfl, (c5_empty_value_skips fixPicker fixDstOpt fixReqGet [.vint 7] 0 fixFieldOpt).1,
    (c5_empty_value_skips fixPicker fixDstOpt fixReqGet [.vint 7] 0 fixFieldOpt).2
      "header[missing]" [] rfl⟩

/-- C6: a content-type with no registry entry — registry matching is
exact string equality, so a parameterized variant of a registered type
also misses — resolves to the no-op decoder, whose `Decode` reports
success (`nil` error) and leaves the destination record unchanged. -/
theorem c6_unregistered_content_type_noop (p : Picker) (ct body : String)
    (h : p.registry.find? (fun en => en.1 == ct) = none) :
    newDecoder p ct body = noop
    ∧ ∀ vals : List Value, newDecoder p ct body vals = (vals, none) := by
  have hnd : newDecoder p ct body = noop := by
    unfold newDecoder
    rw [h]
  exact ⟨hnd, fun vals => by rw [hnd]; rfl⟩

/-- Witness for C6: `application/json; charset=utf-8` does not match
the registered `application/json` and resolves to the no-op decoder. -/
theorem c6_unregistered_content_type_noop_witness :
    (fixPicker.registry.find?
        (fun en => en.1 == "application/json; charset=utf-8") = none)
    ∧ (newDecoder fixPicker "application/json; charset=utf-8" "\x7bbroken" = noop
      ∧ ∀ vals : List Value,
          newDecoder fixPicker "application/json; charset=utf-8" "\x7bbroken" vals
            = (vals, none)) :=
  ⟨rfl, c6_unregistered_content_type_noop fixPicker
    "application/json; charset=utf-8" "\x7bbroken" rfl⟩

/-- C7: a restricted (unexported) field with a source tag, a non-empty
resolved value and no companion `Set<FieldName>` method makes the bind
panic with a message naming the field and the expected setter, rather
than return a Bind Error — and this regardless of the picker, so also
with no (or even with a) registered type override, since the panic
precedes the override lookup. -/
theorem c7_private_field_panics (p : Picker) (d : Dst) (r : Request)
    (vals vals1 : List Value) (pre : List (Nat × Field)) (i : Nat) (f : Field)
    (val src : String)
    (hpriv : f.pkgPath ≠ "")
    (hval : val ≠ "")
    (hread : readValue r f.tag = some (val, src))
    (hmeth : findMethod d (setMethodName f) = none)
    (hpre : pickLoop p d r vals pre = .ok vals1) :
    setField p d vals1 i f val
        = .fatal ("private field " ++ f.name ++ ", missing " ++ setMethodName f)
    ∧ ∀ rest : List (Nat × Field),
        pickLoop p d r vals (pre ++ (i, f) :: rest)
          = .fatal ("private field " ++ f.name ++ ", missing " ++ setMethodName f) := by
  have hsf : setField p d vals1 i f val
      = .fatal ("private field " ++ f.name ++ ", missing " ++ setMethodName f) := by
    unfold setField
    rw [if_neg hval]
    rw [hmeth]
    rw [if_pos hpriv]
  refine ⟨hsf, ?_⟩
  intro rest
  rw [pickLoop_append, hpre]
  simp only [pickLoop, hread, hsf]

/-- Witness for C7: unexported field `token` tagged `header:"s"`, the
header present, no `SetToken` method. -/
theorem c7_private_field_panics_witness :
    (("xr" : String) ≠ "")
    ∧ (("hello" : String) ≠ "")
    ∧ (readValue fixReqPost [("header", "s")] = some ("hello", "header[s]"))
    ∧ (findMethod fixDstPrivate "SetToken" = none)
    ∧ (setField fixPicker fixDstPrivate [.vstring ""] 0
        ⟨"token", "xr", "string", .string, [("header", "s")]⟩ "hello"
        = .fatal "private field token, missing SetToken"
      ∧ ∀ rest : List (Nat × Field),
          pickLoop fixPicker fixDstPrivate fixReqPost [.vstring ""]
            ([] ++ (0, ⟨"token", "xr", "string", .string, [("header", "s")]⟩) :: rest)
            = .fatal "private field token, missing SetToken") :=
  ⟨by decide, by decide, rfl, rfl,
    c7_private_field_panics fixPicker fixDstPrivate fixReqPost [.vstring ""]
      [.vstring ""] [] 0 ⟨"token", "xr", "string", .string, [("header", "s")]⟩
      "hello" "header[s]" (by decide) (by decide) rfl rfl rfl⟩

/-- C8: `Pick` on a destination that is not a pointer panics with
`dst must be a pointer` before any body decoding or field processing
(the result is the panic for every picker, registry and request), while
on a pointer destination `Pick` proceeds directly to the body phase and
field loop — and, for a destination whose fields are all exported,
never reaches any panic at all. -/
theorem c8_non_pointer_panics (p : Picker) (r : Request) (k : String) :
    pick p (.nonPtr k) r = .fatal "Pick(dst, r): dst must be a pointer"
    ∧ (∀ (d : Dst) (vals : List Value),
        pick p (.ptrTo d vals) r =
          match bodyPhase p d vals r with
          | .ok vals2 => pickLoop p d r vals2 d.fields.enum
          | .err v e => .err v e
          | .fatal msg => .fatal msg)
    ∧ (∀ (d : Dst) (vals : List Value),
        (∀ pr ∈ d.fields.enum, (Prod.snd pr).pkgPath = "") →
        ∀ msg : String, pick p (.ptrTo d vals) r ≠ .fatal msg) := by
  refine ⟨rfl, fun d vals => rfl, ?_⟩
  intro d vals hpub msg h
  simp only [pick] at h
  cases hbp : bodyPhase p d vals r with
  | ok v2 =>
    rw [hbp] at h
    exact pickLoop_no_fatal p d r d.fields.enum v2 hpub msg h
  | err v e =>
    rw [hbp] at h
    injection h
  | fatal m =>
    exact bodyPhase_no_fatal p d vals r m hbp

/-- Witness for C8 at a concrete picker, request and destination. -/
theorem c8_non_pointer_panics_witness :
    (pick fixPicker (.nonPtr "struct") fixReqPost
        = .fatal "Pick(dst, r): dst must be a pointer")
    ∧ (∀ (d : Dst) (vals : List Value),
        pick fixPicker (.ptrTo d vals) fixReqPost =
          match bodyPhase fixPicker d vals fixReqPost with
          | .ok vals2 => pickLoop fixPicker d fixReqPost vals2 d.fields.enum
          | .err v e => .err v e
          | .fatal msg => .fatal msg)
    ∧ (∀ (d : Dst) (vals : List Value),
        (∀ pr ∈ d.fields.enum, (Prod.snd pr).pkgPath = "") →
        ∀ msg : String, pick fixPicker (.ptrTo d vals) fixReqPost ≠ .fatal msg) :=
  c8_non_pointer_panics fixPicker fixReqPost "struct"

/-- C9: assignment through the type-coercion switch is atomic with
respect to failure: for a field dispatched to it (no companion method,
exported, no registered override), any error outcome leaves the field
values exactly as they were — the field is written only after parsing
and all declared validation rules succeed. -/
theorem c9_coercion_error_leaves_field (p : Picker) (d : Dst) (vals : List Value)
    (i : Nat) (f : Field) (val : String)
    (hmeth : findMethod d (setMethodName f) = none)
    (hpub : f.pkgPath = "")
    (hover : p.setters.find? (fun pr => pr.1 == f.typeName) = none) :
    ∀ (v : List Value) (e : String),
      setField p d vals i f val = .err v e → v = vals := by
  intro v e h
  by_cases hv : val = ""
  · rw [hv] at h
    unfold setField at h
    rw [if_pos rfl] at h
    injection h
  · unfold setField at h
    rw [if_neg hv] at h
    rw [hmeth] at h
    rw [if_neg (by simp [hpub])] at h
    rw [hover] at h
    exact coerceAndSet_err f vals i val v e h

/-- Witness for C9: an `int` field fed `abc` fails to parse and the
destination state is unchanged. -/
theorem c9_coercion_error_leaves_field_witness :
    (findMethod fixDstTwoBad "SetN" = none)
    ∧ ((⟨"N", "", "int", .int, [("header", "n")]⟩ : Field).pkgPath = "")
    ∧ (fixPicker.setters.find? (fun pr => pr.1 == "int") = none)
    ∧ ∀ (v : List Value) (e : String),
        setField fixPicker fixDstTwoBad [.vint 5, .vstring "x"] 0
            ⟨"N", "", "int", .int, [("header", "n")]⟩ "abc" = .err v e
          → v = [.vint 5, .vstring "x"] :=
  ⟨rfl, rfl, rfl,
    c9_coercion_error_leaves_field fixPicker fixDstTwoBad [.vint 5, .vstring "x"] 0
      ⟨"N", "", "int", .int, [("header", "n")]⟩ "abc" rfl rfl rfl⟩

/-- C10: setter precedence is deterministic and the companion method
wins.  With a non-empty resolved value and a `Set<FieldName>` method
present, `set`'s outcome is exactly the method call's — and it is
unchanged under any picker (so the registered override is never
consulted) and any declared kind or tag set of the field (so the
coercion table and the validation tags are never consulted).  The
registered type override is consulted exactly when no companion method
exists for an exported field. -/
theorem c10_method_takes_precedence (p : Picker) (d : Dst) (vals : List Value)
    (i : Nat) (f : Field) (val : String) (mth : Method)
    (hval : val ≠ "")
    (hmeth : findMethod d (setMethodName f) = some mth) :
    (setField p d vals i f val =
      match (mth.call val vals).2 with
      | some e => .err (mth.call val vals).1 e
      | none => .ok (mth.call val vals).1)
    ∧ (∀ (p2 : Picker) (k2 : Kind) (t2 : Tags),
        setField p2 d vals i { f with kind := k2, tag := t2 } val
          = setField p d vals i f val)
    ∧ (∀ (g : Field) (fn : String × Setfn),
        g.pkgPath = "" →
        findMethod d (setMethodName g) = none →
        p.setters.find? (fun pr => pr.1 == g.typeName) = some fn →
        setField p d vals i g val =
          match (fn.2 (vals.getD i .vother) val).2 with
          | some e => .err (vals.set i (fn.2 (vals.getD i .vother) val).1) e
          | none => .ok (vals.set i (fn.2 (vals.getD i .vother) val).1)) := by
  have hname : setMethodName { f with kind := Kind.bool, tag := ([] : Tags) }
      = setMethodName f := rfl
  have hmain : ∀ (p2 : Picker) (k2 : Kind) (t2 : Tags),
      setField p2 d vals i { f with kind := k2, tag := t2 } val =
        match (mth.call val vals).2 with
        | some e => .err (mth.call val vals).1 e
        | none => .ok (mth.call val vals).1 := by
    intro p2 k2 t2
    unfold setField
    rw [if_neg hval]
    rw [show setMethodName { f with kind := k2, tag := t2 } = setMethodName f from rfl,
      hmeth]
  have hone : setField p d vals i f val =
      match (mth.call val vals).2 with
      | some e => .err (mth.call val vals).1 e
      | none => .ok (mth.call val vals).1 := by
    unfold setField
    rw [if_neg hval, hmeth]
  refine ⟨hone, fun p2 k2 t2 => (hmain p2 k2 t2).trans hone.symm, ?_⟩
  intro g fn hg hnometh hfind
  unfold setField
  rw [if_neg hval, hnometh]
  rw [if_neg (by simp [hg])]
  rw [hfind]

/-- Witness for C10: `SetColor` exists and alone determines the outcome
even under a different picker, kind and tag set; the `xr.Color`
override fires only for the method-less field `Shade`. -/
theorem c10_method_takes_precedence_witness :
    (("hello" : String) ≠ "")
    ∧ (findMethod fixDstWithMethod (setMethodName fixFieldColor) = some fixSetColor)
    ∧ ((setField fixPickerWithSetter fixDstWithMethod [.vother] 0 fixFieldColor "hello" =
        match (fixSetColor.call "hello" [.vother]).2 with
        | some e => .err (fixSetColor.call "hello" [.vother]).1 e
        | none => .ok (fixSetColor.call "hello" [.vother]).1)
      ∧ (∀ (p2 : Picker) (k2 : Kind) (t2 : Tags),
          setField p2 fixDstWithMethod [.vother] 0
              { fixFieldColor with kind := k2, tag := t2 } "hello"
            = setField fixPickerWithSetter fixDstWithMethod [.vother] 0
                fixFieldColor "hello")
      ∧ (∀ (g : Field) (fn : String × Setfn),
          g.pkgPath = "" →
          findMethod fixDstWithMethod (setMethodName g) = none →
          fixPickerWithSetter.setters.find? (fun pr => pr.1 == g.typeName) = some fn →
          setField fixPickerWithSetter fixDstWithMethod [.vother] 0 g "hello" =
            match (fn.2 (([.vother] : List Value).getD 0 .vother) "hello").2 with
            | some e => .err (([.vother] : List Value).set 0
                (fn.2 (([.vother] : List Value).getD 0 .vother) "hello").1) e
            | none => .ok (([.vother] : List Value).set 0
                (fn.2 (([.vother] : List Value).getD 0 .vother) "hello").1))) :=
  ⟨by decide, rfl,
    c10_method_takes_precedence fixPickerWithSetter fixDstWithMethod [.vother] 0
      fixFieldColor "hello" fixSetColor (by decide) rfl⟩

/-- C3 counterexample: bounds parse at float32 precision
(`ParseFloat(min, 32)`), so with `minimum:"16777217"` the bound rounds
to `16777216` and the value `16777216` — one unit below the declared
minimum — passes, while with `maximum:"16777217"` the value `16777217`
— exactly equal to the declared maximum — fails.  Both contradict the
claim as stated over the literal bound. -/
theorem c3_counterexample_float32_bound_rounding :
    minimum [("minimum", "16777217")] (goFloat64OfInt 16777216) = none
    ∧ maximum [("maximum", "16777217")] (goFloat64OfInt 16777217)
        = some "maximum exceeded" := by
  decide

/-- C3 amended: the bound check is inclusive at the *parsed* bound —
the literal is parsed at float32 precision, and for every value (of
magnitude at most `2^53`, so that `float64` conversion is exact) the
check passes exactly when the value is on the closed side of the parsed
bound and fails with "minimum exceeded"/"maximum exceeded" one unit (or
more) beyond it.  For bound literals exactly representable in float32
(e.g. integers of magnitude ≤ 2^24) this is the claim as written. -/
theorem c3_amended_inclusive_at_parsed_bound (tag : Tags) (litMin litMax : String)
    (bMinF bMaxF : Dyadic) (bmin bmax v : Int)
    (hminRat : bMinF.toRat = (bmin : ℚ))
    (hmaxRat : bMaxF.toRat = (bmax : ℚ))
    (hv : v.natAbs ≤ 2 ^ 53) :
    (tagLookup tag "minimum" = some litMin → ParseFloat litMin 32 = .ok bMinF →
      ((bmin ≤ v → minimum tag (goFloat64OfInt v) = none)
      ∧ (v < bmin → minimum tag (goFloat64OfInt v) = some "minimum exceeded")))
    ∧ (tagLookup tag "maximum" = some litMax → ParseFloat litMax 32 = .ok bMaxF →
      ((v ≤ bmax → maximum tag (goFloat64OfInt v) = none)
      ∧ (bmax < v → maximum tag (goFloat64OfInt v) = some "maximum exceeded"))) := by
  have hvRat := goFloat64OfInt_toRat v hv
  constructor
  · intro hlk hpf
    have hm : minimum tag (goFloat64OfInt v)
        = if (goFloat64OfInt v).lt bMinF then some "minimum exceeded" else none := by
      simp only [minimum, hlk, hpf]
    have hlt_iff : (goFloat64OfInt v).lt bMinF = true ↔ v < bmin := by
      rw [Dyadic.lt_iff, hvRat, hminRat]
      exact_mod_cast Iff.rfl
    constructor
    · intro hge
      rw [hm]
      cases hb : (goFloat64OfInt v).lt bMinF with
      | false => simp
      | true => exact absurd (hlt_iff.mp hb) (by omega)
    · intro hlt
      rw [hm]
      rw [if_pos (hlt_iff.mpr hlt)]
  · intro hlk hpf
    have hm : maximum tag (goFloat64OfInt v)
        = if bMaxF.lt (goFloat64OfInt v) then some "maximum exceeded" else none := by
      simp only [maximum, hlk, hpf]
    have hlt_iff : bMaxF.lt (goFloat64OfInt v) = true ↔ bmax < v := by
      rw [Dyadic.lt_iff, hvRat, hmaxRat]
      exact_mod_cast Iff.rfl
    constructor
    · intro hge
      rw [hm]
      cases hb : bMaxF.lt (goFloat64OfInt v) with
      | false => simp
      | true => exact absurd (hlt_iff.mp hb) (by omega)
    · intro hlt
      rw [hm]
      rw [if_pos (hlt_iff.mpr hlt)]

/-- Witness for amended C3: bounds `minimum:"100"`, `maximum:"200"`;
values exactly at each bound pass, one unit beyond each fails. -/
theorem c3_amended_inclusive_at_parsed_bound_witness :
    (Dyadic.toRat ⟨13107200, -17⟩ = (100 : ℚ))
    ∧ (Dyadic.toRat ⟨13107200, -16⟩ = (200 : ℚ))
    ∧ ((100 : Int).natAbs ≤ 2 ^ 53)
    ∧ minimum fixTagMinMax (goFloat64OfInt 100) = none
    ∧ minimum fixTagMinMax (goFloat64OfInt 99) = some "minimum exceeded"
    ∧ maximum fixTagMinMax (goFloat64OfInt 200) = none
    ∧ maximum fixTagMinMax (goFloat64OfInt 201) = some "maximum exceeded" := by
  have h100 : Dyadic.toRat ⟨13107200, -17⟩ = (100 : ℚ) := by
    unfold Dyadic.toRat
    rw [show ((-17 : Int)) = -((17 : Nat) : Int) by norm_num, zpow_neg, zpow_natCast]
    norm_num
  have h200 : Dyadic.toRat ⟨13107200, -16⟩ = (200 : ℚ) := by
    unfold Dyadic.toRat
    rw [show ((-16 : Int)) = -((16 : Nat) : Int) by norm_num, zpow_neg, zpow_natCast]
    norm_num
  refine ⟨h100, h200, by norm_num, ?_, ?_, ?_, ?_⟩
  · exact (((c3_amended_inclusive_at_parsed_bound fixTagMinMax "100" "200"
      ⟨13107200, -17⟩ ⟨13107200, -16⟩ 100 200 100 h100 h200 (by norm_num)).1)
      rfl rfl).1 (by norm_num)
  · exact (((c3_amended_inclusive_at_parsed_bound fixTagMinMax "100" "200"
      ⟨13107200, -17⟩ ⟨13107200, -16⟩ 100 200 99 h100 h200 (by norm_num)).1)
      rfl rfl).2 (by norm_num)
  · exact (((c3_amended_inclusive_at_parsed_bound fixTagMinMax "100" "200"
      ⟨13107200, -17⟩ ⟨13107200, -16⟩ 100 200 200 h100 h200 (by norm_num)).2)
      rfl rfl).1 (by norm_num)
  · exact (((c3_amended_inclusive_at_parsed_bound fixTagMinMax "100" "200"
      ⟨13107200, -17⟩ ⟨13107200, -16⟩ 100 200 201 h100 h200 (by norm_num)).2)
      rfl rfl).2 (by norm_num)

/-- C4 counterexample: `minLength`/`maxLength` compare `len(value)` —
the UTF-8 byte count — not the count of characters: the one-character,
two-byte string `é` is rejected by `maxLength:"1"`. -/
theorem c4_counterexample_char_count :
    maxLength [("maxLength", "1")] "é" = some "maxLength exceeded"
    ∧ ("é" : String).length = 1
    ∧ ("é" : String).utf8ByteSize = 2 := by
  decide

/-- C4 amended: for a string field with a `minLength`/`maxLength` tag
and a non-empty resolved value, validation compares the *UTF-8 byte
length* of the raw string against the bound, failing with
"minLength exceeded"/"maxLength exceeded" on violation; a bound that is
not an integer literal fails the bind immediately with the parse error;
and on the full `set` path the string is assigned only when both checks
pass. -/
theorem c4_amended_byte_length (tag : Tags) (value lit : String) (bound : Int)
    (e : String) :
    (tagLookup tag "minLength" = some lit → ParseInt lit 64 = .ok bound →
      ((minLength tag value = some "minLength exceeded"
          ↔ (value.utf8ByteSize : Int) < bound)
      ∧ (minLength tag value = none ↔ bound ≤ (value.utf8ByteSize : Int))))
    ∧ (tagLookup tag "minLength" = some lit → ParseInt lit 64 = .error e →
        minLength tag value = some e)
    ∧ (tagLookup tag "maxLength" = some lit → ParseInt lit 64 = .ok bound →
      ((maxLength tag value = some "maxLength exceeded"
          ↔ bound < (value.utf8ByteSize : Int))
      ∧ (maxLength tag value = none ↔ (value.utf8ByteSize : Int) ≤ bound)))
    ∧ (tagLookup tag "maxLength" = some lit → ParseInt lit 64 = .error e →
        maxLength tag value = some e)
    ∧ (∀ (p : Picker) (d : Dst) (vals : List Value) (i : Nat) (f : Field),
        f.kind = .string → f.pkgPath = "" → f.tag = tag → value ≠ "" →
        findMethod d (setMethodName f) = none →
        p.setters.find? (fun pr => pr.1 == f.typeName) = none →
        ((minLength tag value = some "minLength exceeded" →
            setField p d vals i f value = .err vals "minLength exceeded")
        ∧ (minLength tag value = none → maxLength tag value = none →
            setField p d vals i f value = .ok (vals.set i (.vstring value))))) := by
  refine ⟨?_, ?_, ?_, ?_, ?_⟩
  · intro hlk hpi
    have hml : minLength tag value
        = if (value.utf8ByteSize : Int) < bound then some "minLength exceeded"
          else none := by
      simp only [minLength, hlk, hpi]
    by_cases hlt : (value.utf8ByteSize : Int) < bound
    · rw [hml, if_pos hlt]
      constructor
      · simp [hlt]
      · constructor
        · intro hco
          cases hco
        · intro hle
          omega
    · rw [hml, if_neg hlt]
      constructor
      · constructor
        · intro hco
          cases hco
        · intro hco
          omega
      · simp
        omega
  · intro hlk hpi
    simp only [minLength, hlk, hpi]
  · intro hlk hpi
    have hml : maxLength tag value
        = if bound < (value.utf8ByteSize : Int) then some "maxLength exceeded"
          else none := by
      simp only [maxLength, hlk, hpi]
    by_cases hlt : bound < (value.utf8ByteSize : Int)
    · rw [hml, if_pos hlt]
      constructor
      · simp [hlt]
      · constructor
        · intro hco
          cases hco
        · intro hle
          omega
    · rw [hml, if_neg hlt]
      constructor
      · constructor
        · intro hco
          cases hco
        · intro hco
          omega
      · simp
        omega
  · intro hlk hpi
    simp only [maxLength, hlk, hpi]
  · intro p d vals i f hkind hpub htag hval hmeth hover
    have hsfeq : setField p d vals i f value = coerceAndSet f vals i value := by
      unfold setField
      rw [if_neg hval, hmeth, if_neg (by simp [hpub]), hover]
    constructor
    · intro hml
      rw [hsfeq]
      unfold coerceAndSet
      rw [hkind, htag, hml]
    · intro hml hMl
      rw [hsfeq]
      unfold coerceAndSet
      rw [hkind, htag, hml, hMl]

/-- Witness for amended C4: `minLength:"3"` against the two-byte value
`ab` fails; against `abc` it passes and the string is assigned. -/
theorem c4_amended_byte_length_witness :
    (tagLookup fixTagMinLen "minLength" = some "3")
    ∧ (ParseInt "3" 64 = .ok 3)
    ∧ (minLength fixTagMinLen "ab" = some "minLength exceeded"
        ↔ (("ab" : String).utf8ByteSize : Int) < 3)
    ∧ (minLength fixTagMinLen "abc" = none
        ↔ (3 : Int) ≤ (("abc" : String).utf8ByteSize : Int))
    ∧ setField fixPicker
        ⟨"xr.S", [⟨"S", "", "string", .string, fixTagMinLen⟩], []⟩
        [.vstring ""] 0 ⟨"S", "", "string", .string, fixTagMinLen⟩ "ab"
        = .err [.vstring ""] "minLength exceeded" := by
  refine ⟨rfl, rfl, ?_, ?_, ?_⟩
  · exact ((c4_amended_byte_length fixTagMinLen "ab" "3" 3 "").1 rfl rfl).1
  · exact ((c4_amended_byte_length fixTagMinLen "abc" "3" 3 "").1 rfl rfl).2
  · exact (((c4_amended_byte_length fixTagMinLen "ab" "3" 3 "").2.2.2.2)
      fixPicker ⟨"xr.S", [⟨"S", "", "string", .string, fixTagMinLen⟩], []⟩
      [.vstring ""] 0 ⟨"S", "", "string", .string, fixTagMinLen⟩
      rfl rfl rfl (by decide) rfl rfl).1 (by decide)

end Xr
